import Mathlib

/-!
Verification of the gatspy RR Lyrae template modeler
(`src/gatspy/periodic/template_modeler.py`).

Embedding conventions:
* numpy floating-point arrays are modelled over an arbitrary linear ordered
  field `α` (instantiated at `ℚ` for executable witnesses and at `ℝ` for the
  calculus statements); IEEE rounding is out of scope.
* a numpy ndarray is a `shape` together with its flat `data`
  (row-major, matching `arr.flat`); 1-D arrays are plain lists.
* `x % 1` on floats (numpy `%` with positive divisor) is `Int.fract`.
* scipy's `UnivariateSpline` is external: an interpolated template is
  abstracted as a pair of evaluation/derivative functions (`Template`), and
  `_interpolated_template` is modelled up to the data actually handed to the
  spline constructor (`SplineSpec`).
* scipy's `minimize` is external: it is an abstract `Minimizer`, a function
  from the arguments the source passes (objective with gradient, starting
  point, jac flag, box bounds) to a result carrying the final iterate `x`
  and a `success` flag.  Theorems quantify over all minimizers.
* the `PeriodicModeler` base class is not under `src/`; its `fit`/`score`/
  `predict` entry points are (per the spec) thin wrappers that store data and
  delegate to the `_fit`/`_score`/`_predict` hooks defined here, so the hooks
  are verified directly.  The multiband `unique_filts_` attribute is
  modelled from the spec: distinct band labels in order of first appearance.
-/

namespace Gatspy

variable {α : Type} [LinearOrderedField α] [FloorRing α]
variable {β : Type} {γ : Type}

/-- A numpy ndarray: its shape and its flat (row-major) data. -/
structure NDArray (α : Type) where
  shape : List ℕ
  data : List α
deriving DecidableEq

/-- `arr.flat[i] = v` in-place update. -/
def NDArray.setFlat (a : NDArray α) (i : ℕ) (v : α) : NDArray α :=
  ⟨a.shape, a.data.set i v⟩

/-- `np.zeros(shape)`. -/
def npZeros (shape : List ℕ) : NDArray α :=
  ⟨shape, List.replicate shape.prod 0⟩

/-- An ndarray is well formed when its flat data fills its shape. -/
def NDArray.WF (a : NDArray α) : Prop := a.data.length = a.shape.prod

/-- Python `min` over a list (callers guarantee nonemptiness; `min([])`
raises in Python, here the junk value `0` is returned). -/
def pyMin : List α → α
  | [] => 0
  | x :: xs => xs.foldl min x

/-- Python/numpy `max` over a list (junk `0` on the empty list). -/
def pyMax : List α → α
  | [] => 0
  | x :: xs => xs.foldl max x

/-- `np.argmin`: index of the first minimal entry. -/
def npArgmin (l : List α) : ℕ :=
  (l.enum.foldl (fun acc iv => if iv.2 < acc.2 then iv else acc) (0, l.headD 0)).1

/-- `np.dot` of two 1-D arrays. -/
def npDotL (a b : List α) : α := (List.zipWith (· * ·) a b).sum

/-- List sum is `np.sum`; `np.mean` is sum over size. -/
def npMean (l : List α) : α := l.sum / (l.length : α)

/-- Broadcast access to the stored uncertainty array: a size-1 `dy`
broadcasts its single value over every sample (numpy broadcasting). -/
def dyAt (dy : List α) (i : ℕ) : α :=
  if dy.length = 1 then dy.headD 0 else dy.getD i 0

/-- An interpolated template: scipy `UnivariateSpline` evaluation and its
`derivative(1)`, abstract functions of phase. -/
structure Template (α : Type) where
  eval : α → α
  deriv : α → α

instance : Inhabited (Template α) := ⟨⟨fun _ => 0, fun _ => 0⟩⟩

/-- The data handed to scipy's `UnivariateSpline(x, y, s=s, k=k)`
constructor by `_interpolated_template`. -/
structure SplineSpec (α : Type) where
  x : List α
  y : List α
  s : α
  k : ℕ
deriving DecidableEq

/-- `RRLyraeTemplateModeler._interpolated_template`: pad the raw template
periodically (`phase[-5:] - 1` in front, `phase[:5] + 1` behind; Python
slices clamp when fewer than 5 samples exist) and hand the result to
`UnivariateSpline(phase, y, s=0, k=5)`.  `phase[-5:]` is `drop (len - 5)`
and `phase[:5]` is `take 5`, which agree with Python slicing for short
lists because `Nat` subtraction truncates at zero. -/
def _interpolated_template (phase y : List α) : SplineSpec α :=
  ⟨(phase.drop (phase.length - 5)).map (fun v => v - 1) ++ phase
      ++ (phase.take 5).map (fun v => v + 1),
   y.drop (y.length - 5) ++ y ++ y.take 5,
   0, 5⟩

/-- The single-band modeler in its fitted state: the interpolated templates
selected at construction and the observation set plus `chi2_0_` stored by
`fit`. -/
structure RRLyraeTemplateModeler (α : Type) where
  templates : List (Template α)
  t : List α
  y : List α
  dy : List α
  chi2_0_ : α

instance : Inhabited (RRLyraeTemplateModeler α) := ⟨⟨[], [], [], [], 0⟩⟩

/-- `RRLyraeTemplateModeler._fit`: store the observations and compute
`chi2_0_`.  `dy.size == 1` selects `np.mean(y)`, otherwise the
inverse-variance weighted mean `np.dot(y, w) / w.sum()` with `w = 1/dy**2`;
then `chi2_0_ = np.sum((y - ymean)**2 / self.dy**2)` (with `dy`
broadcasting when it has size one). -/
def RRLyraeTemplateModeler._fit (templates : List (Template α))
    (t y dy : List α) : RRLyraeTemplateModeler α :=
  let ymean : α :=
    if dy.length = 1 then npMean y
    else npDotL y (dy.map fun d => 1 / d ^ 2) / (dy.map fun d => 1 / d ^ 2).sum
  { templates := templates, t := t, y := y, dy := dy,
    chi2_0_ := ∑ i ∈ Finset.range y.length,
      (y.getD i 0 - ymean) ^ 2 / dyAt dy i ^ 2 }

/-- `self.templates[tmpid]` (index always in range at call sites). -/
def RRLyraeTemplateModeler.tmpl (m : RRLyraeTemplateModeler α) (k : ℕ) :
    Template α :=
  m.templates.getD k default

/-- `RRLyraeTemplateModeler._model` at a single time sample (numpy
broadcasts this expression over the input array):
`theta[0] + theta[1] * template((t / period - theta[2]) % 1)`. -/
def RRLyraeTemplateModeler._model (m : RRLyraeTemplateModeler α) (ti : α)
    (theta : α × α × α) (period : α) (tmpid : ℕ) : α :=
  theta.1 + theta.2.1 * (m.tmpl tmpid).eval (Int.fract (ti / period - theta.2.2))

/-- `RRLyraeTemplateModeler._chi2` (without gradient):
`(((model - self.y) / self.dy) ** 2).sum()`. -/
def RRLyraeTemplateModeler._chi2 (m : RRLyraeTemplateModeler α)
    (theta : α × α × α) (period : α) (tmpid : ℕ) : α :=
  ∑ i ∈ Finset.range m.t.length,
    ((m._model (m.t.getD i 0) theta period tmpid - m.y.getD i 0) / dyAt m.dy i) ^ 2

/-- `RRLyraeTemplateModeler._chi2` with `return_gradient=True`: the pair of
the chi-square and the gradient array
`[sum(grad), sum(grad * template(phase)),
 -sum(grad * theta[1] * template.derivative(1)(phase))]`
with `grad = 2 * (model - self.y) / self.dy ** 2`. -/
def RRLyraeTemplateModeler._chi2grad (m : RRLyraeTemplateModeler α)
    (theta : α × α × α) (period : α) (tmpid : ℕ) : α × (α × α × α) :=
  let grad : ℕ → α := fun i =>
    2 * (m._model (m.t.getD i 0) theta period tmpid - m.y.getD i 0) / dyAt m.dy i ^ 2
  (m._chi2 theta period tmpid,
   (∑ i ∈ Finset.range m.t.length, grad i,
    ∑ i ∈ Finset.range m.t.length,
      grad i * (m.tmpl tmpid).eval (Int.fract (m.t.getD i 0 / period - theta.2.2)),
    -(∑ i ∈ Finset.range m.t.length,
      grad i * theta.2.1 *
        (m.tmpl tmpid).deriv (Int.fract (m.t.getD i 0 / period - theta.2.2)))))

/-- The arguments `scipy.optimize.minimize` is called with. -/
structure MinimizeArgs (α : Type) where
  f : α × α × α → α × (α × α × α)
  x0 : α × α × α
  jac : Bool
  bounds : (Option α × Option α) × (Option α × Option α) × (Option α × Option α)

/-- The part of a `scipy.optimize.OptimizeResult` the source reads. -/
structure MinimizeResult (α : Type) where
  x : α × α × α
  success : Bool

/-- An abstract `scipy.optimize.minimize`. -/
def Minimizer (α : Type) : Type := MinimizeArgs α → MinimizeResult α

/-- The argument record `RRLyraeTemplateModeler._optimize` passes to
`minimize`: objective `self._chi2` with gradient (`jac=True`), start
`[y.min(), y.max() - y.min(), 0]`, bounds
`[(None, None), (0, None), (0, 1)]`. -/
def RRLyraeTemplateModeler._optimizeArgs (m : RRLyraeTemplateModeler α)
    (period : α) (tmpid : ℕ) : MinimizeArgs α :=
  { f := fun theta => m._chi2grad theta period tmpid,
    x0 := (pyMin m.y, pyMax m.y - pyMin m.y, 0),
    jac := true,
    bounds := ((none, none), (some 0, none), (some 0, some 1)) }

/-- `RRLyraeTemplateModeler._optimize`: run the minimizer and return
`result.x` (the `success` flag is never consulted). -/
def RRLyraeTemplateModeler._optimize (m : RRLyraeTemplateModeler α)
    (M : Minimizer α) (period : α) (tmpid : ℕ) : α × α × α :=
  (M (m._optimizeArgs period tmpid)).x

/-- `RRLyraeTemplateModeler._eval_templates`: optimize every template
independently, then evaluate each optimized chi-square. -/
def RRLyraeTemplateModeler._eval_templates (m : RRLyraeTemplateModeler α)
    (M : Minimizer α) (period : α) : List (α × α × α) × List α :=
  let theta_best := (List.range m.templates.length).map
    (fun tmpid => m._optimize M period tmpid)
  (theta_best, theta_best.enum.map (fun it => m._chi2 it.2 period it.1))

/-- One entry of `_score`: `1 - min(chi2) / self.chi2_0_`. -/
def scoreEntry (m : RRLyraeTemplateModeler α) (M : Minimizer α)
    (period : α) : α :=
  1 - pyMin (m._eval_templates M period).2 / m.chi2_0_

/-- `RRLyraeTemplateModeler._score`: allocate `np.zeros(periods.shape)` and
fill `scores.flat[i]` for each `(i, period)` in `enumerate(periods.flat)`. -/
def RRLyraeTemplateModeler._score (m : RRLyraeTemplateModeler α)
    (M : Minimizer α) (periods : NDArray α) : NDArray α :=
  periods.data.enum.foldl
    (fun sc ip => sc.setFlat ip.1 (scoreEntry m M ip.2))
    (npZeros periods.shape)

/-- `RRLyraeTemplateModeler._predict`: re-run `_eval_templates`, pick the
argmin template, and evaluate its model at the requested times. -/
def RRLyraeTemplateModeler._predict (m : RRLyraeTemplateModeler α)
    (M : Minimizer α) (t : List α) (period : α) : List α :=
  let tb := m._eval_templates M period
  let i_best := npArgmin tb.2
  t.map (fun ti => m._model ti (tb.1.getD i_best (0, 0, 0)) period i_best)

/-- `filts == filt`: elementwise comparison mask of a band-label array. -/
def eqMask [DecidableEq β] (filts : List β) (b : β) : List Bool :=
  filts.map (fun x => decide (x = b))

/-- numpy boolean-mask read `l[mask]`. -/
def maskSelect : List Bool → List γ → List γ
  | [], _ => []
  | _ :: _, [] => []
  | b :: ms, x :: xs => if b then x :: maskSelect ms xs else maskSelect ms xs

/-- numpy boolean-mask write `l[mask] = vs` (the value count always matches
the mask at the call sites in the source; surplus positions keep their old
entries). -/
def maskAssign : List Bool → List γ → List γ → List γ
  | [], xs, _ => xs
  | _ :: _, [], _ => []
  | b :: ms, x :: xs, vs =>
    if b then
      match vs with
      | [] => x :: maskAssign ms xs []
      | v :: vs2 => v :: maskAssign ms xs vs2
    else x :: maskAssign ms xs vs

/-- Python `dict` lookup on an association list whose keys are distinct at
the call sites (`dict(zip(unique_filts_, models_))`). -/
def dictLookup [DecidableEq β] : List (β × γ) → β → Option γ
  | [], _ => none
  | (k, v) :: rest, b => if b = k then some v else dictLookup rest b

/-- `np.unique`: the sorted distinct values of a label array. -/
def npUnique [DecidableEq β] [LinearOrder β] (l : List β) : List β :=
  l.dedup.insertionSort (· ≤ ·)

/-- `np.array(list of equal-shape arrays)`: stack along a new first axis. -/
def npStack : List (NDArray α) → NDArray α
  | [] => ⟨[0], []⟩
  | a :: rest => ⟨(a :: rest).length :: a.shape, ((a :: rest).map NDArray.data).flatten⟩

/-- `np.dot(w, b)` for a 1-D `w`: with a 0-d `b` it multiplies, with a 1-D
`b` it is the inner product (`ValueError`, i.e. `none`, on a length
mismatch), and with an N-D `b` (N ≥ 2) it contracts `w` against the
second-to-last axis of `b`:
`out[o, r] = sum_j w[j] * b[o, j, r]` (`o` ranging over the leading axes of
`b`, `r` over its last axis), requiring `len(w)` to equal that axis. -/
def npDot1 (w : List α) (b : NDArray α) : Option (NDArray α) :=
  match b.shape with
  | [] => some ⟨[w.length], w.map (fun v => v * b.data.headD 0)⟩
  | [n] => if w.length = n then some ⟨[], [npDotL w b.data]⟩ else none
  | s1 :: s2 :: srest =>
    let s := s1 :: s2 :: srest
    let m := s.getD (s.length - 2) 0
    let q := s.getD (s.length - 1) 0
    let pre := (s.take (s.length - 2)).prod
    if w.length = m then
      some ⟨s.eraseIdx (s.length - 2),
        ((List.range pre).map (fun o => (List.range q).map (fun r =>
          ∑ j ∈ Finset.range m,
            w.getD j 0 * b.data.getD ((o * m + j) * q + r) 0))).flatten⟩
    else none

/-- The multiband modeler in its fitted state. -/
structure RRLyraeTemplateModelerMultiband (α β : Type) where
  unique_filts_ : List β
  models_ : List (RRLyraeTemplateModeler α)

/-- `self.modeldict_ = dict(zip(self.unique_filts_, self.models_))`. -/
def RRLyraeTemplateModelerMultiband.modeldict_
    (mb : RRLyraeTemplateModelerMultiband α β) :
    List (β × RRLyraeTemplateModeler α) :=
  mb.unique_filts_.zip mb.models_

/-- `RRLyraeTemplateModelerMultiband._fit`: one single-band modeler per
distinct band, fitted on that band's masked subset.  `mkTemplates` stands
for the external template-library load `RRLyraeTemplateModeler(filts=filt)`
performs. -/
def RRLyraeTemplateModelerMultiband._fit (mkTemplates : β → List (Template α))
    [DecidableEq β] (uniqueFilts : List β) (t y dy : List α) (filts : List β) :
    RRLyraeTemplateModelerMultiband α β :=
  { unique_filts_ := uniqueFilts,
    models_ := uniqueFilts.map (fun f =>
      RRLyraeTemplateModeler._fit (mkTemplates f)
        (maskSelect (eqMask filts f) t)
        (maskSelect (eqMask filts f) y)
        (maskSelect (eqMask filts f) dy)) }

/-- Modelled from the spec: the distinct values of a list in order of first
appearance (how the `PeriodicModelerMultiband` base class, which is not
under `src/`, derives `unique_filts_`). -/
def uniqueFirst [DecidableEq β] (l : List β) : List β :=
  l.foldl (fun acc x => if x ∈ acc then acc else acc ++ [x]) []

/-- Modelled from the spec: the `PeriodicModelerMultiband` base class (not
under `src/`) sets `unique_filts_` to the distinct band labels in order of
first appearance before invoking `_fit`. -/
def RRLyraeTemplateModelerMultiband.fit (mkTemplates : β → List (Template α))
    [DecidableEq β] (t y dy : List α) (filts : List β) :
    RRLyraeTemplateModelerMultiband α β :=
  RRLyraeTemplateModelerMultiband._fit mkTemplates (uniqueFirst filts) t y dy filts

/-- `RRLyraeTemplateModelerMultiband._score`:
`np.dot(weights, scores) / np.sum(weights)` with `weights` the sub-models'
`chi2_0_` and `scores` their `score(periods)` outputs; `none` models the
`ValueError` numpy raises when the `np.dot` shapes do not align. -/
def RRLyraeTemplateModelerMultiband._score
    (mb : RRLyraeTemplateModelerMultiband α β) (M : Minimizer α)
    (periods : NDArray α) : Option (NDArray α) :=
  let weights := mb.models_.map (fun model => model.chi2_0_)
  let scores := mb.models_.map (fun model => model._score M periods)
  (npDot1 weights (npStack scores)).map
    (fun d => ⟨d.shape, d.data.map (fun v => v / weights.sum)⟩)

/-- The spec's multiband score: the chi2₀-weighted average of the sub-model
scores, elementwise over the period batch
(`Σ_band(chi2₀_band · score_band) / Σ_band(chi2₀_band)`). -/
def mbScoreSpec (mb : RRLyraeTemplateModelerMultiband α β) (M : Minimizer α)
    (periods : NDArray α) : NDArray α :=
  ⟨periods.shape, periods.data.map (fun p =>
    (∑ j ∈ Finset.range mb.models_.length,
      (mb.models_.getD j default).chi2_0_ *
        scoreEntry (mb.models_.getD j default) M p)
    / (mb.models_.map (fun model => model.chi2_0_)).sum)⟩

/-- `RRLyraeTemplateModelerMultiband._predict`: start from
`np.zeros(t.shape)` and, for each band in `np.unique(filts)`, write
`self.modeldict_[filt].predict(t[mask], period)` into `result[mask]`;
`none` models the `KeyError` on a band unseen at fit time. -/
def RRLyraeTemplateModelerMultiband._predict [DecidableEq β] [LinearOrder β]
    (mb : RRLyraeTemplateModelerMultiband α β) (M : Minimizer α)
    (t : List α) (filts : List β) (period : α) : Option (List α) :=
  (npUnique filts).foldl
    (fun acc filt =>
      acc.bind (fun result =>
        (dictLookup mb.modeldict_ filt).map (fun sb =>
          maskAssign (eqMask filts filt) result
            (sb._predict M (maskSelect (eqMask filts filt) t) period))))
    (some (List.replicate t.length 0))

/-- The spec's null-model chi-square, written with indexed sums: unweighted
mean when the uncertainty is a single shared value, inverse-variance
weighted mean when it is per-point. -/
def chi2_0Spec (y dy : List α) : α :=
  if dy.length = 1 then
    ∑ i ∈ Finset.range y.length,
      (y.getD i 0 - y.sum / (y.length : α)) ^ 2 / dy.headD 0 ^ 2
  else
    (∑ i ∈ Finset.range y.length,
      (y.getD i 0 -
        (∑ j ∈ Finset.range y.length, y.getD j 0 * (1 / dy.getD j 0 ^ 2)) /
        (∑ j ∈ Finset.range dy.length, 1 / dy.getD j 0 ^ 2)) ^ 2
        / dy.getD i 0 ^ 2)

/-- The last `n` samples of a list, as the spec phrases it. -/
def lastN (n : ℕ) (l : List γ) : List γ := (l.reverse.take n).reverse

/-- One coordinate satisfies a scipy box bound. -/
def boundOk (b : Option α × Option α) (v : α) : Prop :=
  (∀ lo, b.1 = some lo → lo ≤ v) ∧ (∀ hi, b.2 = some hi → v ≤ hi)

/-- A parameter vector satisfies all three scipy box bounds. -/
def InBounds
    (bd : (Option α × Option α) × (Option α × Option α) × (Option α × Option α))
    (x : α × α × α) : Prop :=
  boundOk bd.1 x.1 ∧ boundOk bd.2.1 x.2.1 ∧ boundOk bd.2.2 x.2.2

/-! ### Generic list bookkeeping lemmas -/

theorem getD_map_lt {β γ : Type} (f : β → γ) (l : List β) (i : ℕ) (d : γ)
    (e : β) (h : i < l.length) : (l.map f).getD i d = f (l.getD i e) := by
  rw [List.getD_eq_getElem _ _ (by simpa using h), List.getD_eq_getElem _ _ h,
    List.getElem_map]

theorem listSum_eq_range (l : List α) :
    l.sum = ∑ i ∈ Finset.range l.length, l.getD i 0 := by
  induction l with
  | nil => simp
  | cons a l ih =>
      rw [List.sum_cons, ih, List.length_cons, Finset.sum_range_succ']
      simp [add_comm]

theorem mapSum_eq_range {β : Type} (f : β → α) (l : List β) (e : β) :
    (l.map f).sum = ∑ i ∈ Finset.range l.length, f (l.getD i e) := by
  rw [listSum_eq_range, List.length_map]
  exact Finset.sum_congr rfl fun i hi =>
    getD_map_lt f l i 0 e (Finset.mem_range.mp hi)

theorem zipWith_mul_sum (a b : List α) (h : a.length = b.length) :
    (List.zipWith (· * ·) a b).sum =
      ∑ i ∈ Finset.range a.length, a.getD i 0 * b.getD i 0 := by
  induction a generalizing b with
  | nil => simp
  | cons x xs ih =>
      cases b with
      | nil => simp at h
      | cons y ys =>
          rw [List.zipWith_cons_cons, List.sum_cons, List.length_cons,
            Finset.sum_range_succ', ih ys (by simpa using h)]
          simp [add_comm]

/-! ### Claim theorems -/

theorem fit_chi2_0 (tm : List (Template α)) (t y dy : List α) :
    (RRLyraeTemplateModeler._fit tm t y dy).chi2_0_ =
      ∑ i ∈ Finset.range y.length,
        (y.getD i 0 -
          (if dy.length = 1 then npMean y
           else npDotL y (dy.map fun d => 1 / d ^ 2) /
             (dy.map fun d => 1 / d ^ 2).sum)) ^ 2 / dyAt dy i ^ 2 := rfl

/-- C3: the fitted `chi2_0_` is the noise-weighted sum of squared residuals
against the data mean, where the mean is unweighted when `dy` has exactly
one element and inverse-variance weighted when `dy` is per-point. -/
theorem claim_C3 (tm : List (Template α)) (t y dy : List α)
    (h : dy.length = 1 ∨ dy.length = y.length) :
    (RRLyraeTemplateModeler._fit tm t y dy).chi2_0_ = chi2_0Spec y dy := by
  by_cases h1 : dy.length = 1
  · simp only [RRLyraeTemplateModeler._fit, chi2_0Spec, npMean, dyAt, if_pos h1]
  · have hlen : dy.length = y.length := h.resolve_left h1
    have e1 : (List.zipWith (· * ·) y (dy.map fun d => 1 / d ^ 2)).sum =
        ∑ j ∈ Finset.range y.length, y.getD j 0 * (1 / dy.getD j 0 ^ 2) := by
      rw [zipWith_mul_sum y _ (by rw [List.length_map, hlen])]
      exact Finset.sum_congr rfl fun j hj => by
        rw [getD_map_lt _ dy j 0 0 (by rw [hlen]; exact Finset.mem_range.mp hj)]
    have e2 : ((dy.map fun d => 1 / d ^ 2)).sum =
        ∑ j ∈ Finset.range dy.length, 1 / dy.getD j 0 ^ 2 :=
      mapSum_eq_range _ dy 0
    simp only [RRLyraeTemplateModeler._fit, chi2_0Spec, npDotL, dyAt,
      if_neg h1, e1, e2]

/-- Witness for C3 at a concrete observation set with per-point `dy`. -/
theorem claim_C3_witness :
    (([1, 2] : List ℚ).length = 1 ∨ ([1, 2] : List ℚ).length = ([3, 7] : List ℚ).length) ∧
    (RRLyraeTemplateModeler._fit ([] : List (Template ℚ)) [0, 1] [3, 7] [1, 2]).chi2_0_ =
      chi2_0Spec [3, 7] [1, 2] :=
  ⟨Or.inr rfl, claim_C3 [] [0, 1] [3, 7] [1, 2] (Or.inr rfl)⟩

/-- C5: the interpolated template is built by prepending the last 5 samples
with phase shifted by −1, appending the first 5 samples with phase shifted
by +1, and requesting a degree-5 spline with zero smoothing. -/
theorem claim_C5 (phase y : List α) (hp : 5 ≤ phase.length) (hy : 5 ≤ y.length) :
    _interpolated_template phase y =
      ⟨(lastN 5 phase).map (fun v => v - 1) ++ phase
          ++ (phase.take 5).map (fun v => v + 1),
       lastN 5 y ++ y ++ y.take 5, (0 : α), 5⟩ := by
  have h5 : ∀ l : List α, lastN 5 l = l.drop (l.length - 5) := fun l => by
    rw [lastN, List.take_reverse, List.reverse_reverse]
  rw [_interpolated_template, h5, h5]

/-- Witness for C5 on a concrete 5-sample raw template. -/
theorem claim_C5_witness :
    (5 ≤ ([0, 1/8, 1/4, 1/2, 3/4] : List ℚ).length ∧
      5 ≤ ([1, 2, 3, 4, 5] : List ℚ).length) ∧
    _interpolated_template ([0, 1/8, 1/4, 1/2, 3/4] : List ℚ) [1, 2, 3, 4, 5] =
      ⟨(lastN 5 ([0, 1/8, 1/4, 1/2, 3/4] : List ℚ)).map (fun v => v - 1)
          ++ [0, 1/8, 1/4, 1/2, 3/4]
          ++ (([0, 1/8, 1/4, 1/2, 3/4] : List ℚ).take 5).map (fun v => v + 1),
       lastN 5 ([1, 2, 3, 4, 5] : List ℚ) ++ [1, 2, 3, 4, 5]
          ++ ([1, 2, 3, 4, 5] : List ℚ).take 5, 0, 5⟩ :=
  ⟨⟨by decide, by decide⟩, claim_C5 _ _ (by decide) (by decide)⟩

/-- C6 counterexample: a raw template with only 3 samples is accepted; the
construction pads with the 3 available samples on each side (Python slice
clamping) and hands the 9 padded points to the spline constructor instead of
failing — no `InsufficientDataError` exists anywhere in the code. -/
theorem claim_C6_counterexample :
    _interpolated_template ([0, 1/4, 1/2] : List ℚ) [1, 2, 3] =
      ⟨[-1, -3/4, -1/2, 0, 1/4, 1/2, 1, 5/4, 3/2],
       [1, 2, 3, 1, 2, 3, 1, 2, 3], 0, 5⟩ := by
  norm_num [_interpolated_template]

/-- C6 amended: with fewer than 5 samples the builder does not fail; the
Python slices `[-5:]` and `[:5]` clamp, so the whole sample list is used as
padding on each side and the spline constructor is still invoked. -/
theorem claim_C6_amended (phase y : List α) (hp : phase.length < 5)
    (hy : y.length < 5) :
    _interpolated_template phase y =
      ⟨phase.map (fun v => v - 1) ++ phase ++ phase.map (fun v => v + 1),
       y ++ y ++ y, (0 : α), 5⟩ := by
  rw [_interpolated_template, Nat.sub_eq_zero_of_le hp.le,
    Nat.sub_eq_zero_of_le hy.le, List.drop_zero, List.drop_zero,
    List.take_of_length_le hp.le, List.take_of_length_le hy.le]

/-- Witness for the amended C6 on a concrete 2-sample raw template. -/
theorem claim_C6_amended_witness :
    (([0, 1/2] : List ℚ).length < 5 ∧ ([4, 6] : List ℚ).length < 5) ∧
    _interpolated_template ([0, 1/2] : List ℚ) [4, 6] =
      ⟨([0, 1/2] : List ℚ).map (fun v => v - 1) ++ [0, 1/2]
          ++ ([0, 1/2] : List ℚ).map (fun v => v + 1),
       [4, 6] ++ [4, 6] ++ [4, 6], 0, 5⟩ :=
  ⟨⟨by decide, by decide⟩, claim_C6_amended _ _ (by decide) (by decide)⟩

/-- C8: the per-template optimization starts from
`θ₀ = (min y, max y − min y, 0)`, passes exactly the box bounds
"offset free, amplitude ≥ 0, shift ∈ [0,1]" to the minimizer, and returns
the minimizer's final iterate unconditionally (the `success` flag is never
read, so non-convergence is absorbed); whenever the minimizer respects its
box bounds the returned amplitude and shift satisfy the constraints. -/
theorem claim_C8 (m : RRLyraeTemplateModeler α) (M : Minimizer α) (p : α)
    (k : ℕ) :
    (m._optimizeArgs p k).x0 = (pyMin m.y, pyMax m.y - pyMin m.y, 0) ∧
    (m._optimizeArgs p k).bounds = ((none, none), (some 0, none), (some 0, some 1)) ∧
    m._optimize M p k = (M (m._optimizeArgs p k)).x ∧
    (InBounds (m._optimizeArgs p k).bounds (M (m._optimizeArgs p k)).x →
      0 ≤ (m._optimize M p k).2.1 ∧
      0 ≤ (m._optimize M p k).2.2 ∧ (m._optimize M p k).2.2 ≤ 1) := by
  refine ⟨rfl, rfl, rfl, fun hb => ?_⟩
  obtain ⟨h1, h2, h3⟩ := hb
  exact ⟨h2.1 0 rfl, h3.1 0 rfl, h3.2 1 rfl⟩

/-- Witness for C8: a concrete minimizer that reports failure
(`success = false`) yet returns an in-bounds iterate, which `_optimize`
passes through. -/
theorem claim_C8_witness :
    InBounds ((⟨[], [], [2, 5], [1], 0⟩ :
        RRLyraeTemplateModeler ℚ)._optimizeArgs 1 0).bounds
      (((fun _ => ⟨(3, 1, 1/2), false⟩ : Minimizer ℚ))
        ((⟨[], [], [2, 5], [1], 0⟩ :
          RRLyraeTemplateModeler ℚ)._optimizeArgs 1 0)).x ∧
    (0 ≤ ((⟨[], [], [2, 5], [1], 0⟩ :
        RRLyraeTemplateModeler ℚ)._optimize (fun _ => ⟨(3, 1, 1/2), false⟩) 1 0).2.1 ∧
     0 ≤ ((⟨[], [], [2, 5], [1], 0⟩ :
        RRLyraeTemplateModeler ℚ)._optimize (fun _ => ⟨(3, 1, 1/2), false⟩) 1 0).2.2 ∧
     ((⟨[], [], [2, 5], [1], 0⟩ :
        RRLyraeTemplateModeler ℚ)._optimize (fun _ => ⟨(3, 1, 1/2), false⟩) 1 0).2.2 ≤ 1) := by
  have hb : InBounds ((⟨[], [], [2, 5], [1], 0⟩ :
      RRLyraeTemplateModeler ℚ)._optimizeArgs 1 0).bounds
      (((fun _ => ⟨(3, 1, 1/2), false⟩ : Minimizer ℚ))
        ((⟨[], [], [2, 5], [1], 0⟩ :
          RRLyraeTemplateModeler ℚ)._optimizeArgs 1 0)).x := by
    refine ⟨⟨?_, ?_⟩, ⟨?_, ?_⟩, ⟨?_, ?_⟩⟩ <;> intro v hv <;>
      simp only [RRLyraeTemplateModeler._optimizeArgs] at hv <;>
      (cases hv <;> norm_num)
  exact ⟨hb, (claim_C8 _ _ 1 0).2.2.2 hb⟩

/-- C9: the fitted `chi2_0_` is in general only non-negative; on data that
equals the null-model mean (for instance constant `y`) it is exactly `0`,
and the score formula divides by the stored `chi2_0_` with no guard, so the
score expression becomes `1 - min(chi2) / 0` (in IEEE arithmetic an
`inf`/`nan`; division by zero is unguarded either way). -/
theorem claim_C9 (tm : List (Template α)) (t y dy : List α) (c : α)
    (M : Minimizer α) (p : α)
    (hy0 : y ≠ []) (hy : ∀ v ∈ y, v = c) (hdy : ∀ d ∈ dy, d ≠ 0)
    (hlen : dy.length = 1 ∨ dy.length = y.length) :
    (∀ t2 y2 dy2 : List α,
        0 ≤ (RRLyraeTemplateModeler._fit tm t2 y2 dy2).chi2_0_) ∧
    (RRLyraeTemplateModeler._fit tm t y dy).chi2_0_ = 0 ∧
    scoreEntry (RRLyraeTemplateModeler._fit tm t y dy) M p =
      1 - pyMin ((RRLyraeTemplateModeler._fit tm t y dy)._eval_templates M p).2
        / 0 := by
  have hnn : ∀ t2 y2 dy2 : List α,
      0 ≤ (RRLyraeTemplateModeler._fit tm t2 y2 dy2).chi2_0_ := by
    intro t2 y2 dy2
    rw [fit_chi2_0]
    apply Finset.sum_nonneg
    intro i _
    exact div_nonneg (sq_nonneg _) (sq_nonneg _)
  have hylen : y.length ≠ 0 := fun h0 => hy0 (List.eq_nil_of_length_eq_zero h0)
  have hgetD : ∀ i ∈ Finset.range y.length, y.getD i 0 = c := by
    intro i hi
    rw [List.getD_eq_getElem y 0 (Finset.mem_range.mp hi)]
    exact hy _ (List.getElem_mem _)
  have hmean :
      (if dy.length = 1 then npMean y
       else npDotL y (dy.map fun d => 1 / d ^ 2) /
         (dy.map fun d => 1 / d ^ 2).sum) = c := by
    by_cases h1 : dy.length = 1
    · rw [if_pos h1, npMean, List.sum_eq_card_nsmul y c hy, nsmul_eq_mul,
        mul_comm, mul_div_assoc, div_self (by exact_mod_cast hylen), mul_one]
    · have hdylen : dy.length = y.length := hlen.resolve_left h1
      have hwpos : ∀ x ∈ dy.map (fun d => 1 / d ^ 2), 0 < x := by
        intro x hx
        obtain ⟨d, hd, rfl⟩ := List.mem_map.mp hx
        exact one_div_pos.mpr
          (lt_of_le_of_ne (sq_nonneg d) (Ne.symm (pow_ne_zero 2 (hdy d hd))))
      have hwsum : 0 < (dy.map fun d => 1 / d ^ 2).sum :=
        List.sum_pos _ hwpos (by
          intro hnil
          exact hylen (by
            have := congrArg List.length hnil
            simp only [List.length_map, List.length_nil] at this
            rw [← hdylen, this]))
      have hdot : npDotL y (dy.map fun d => 1 / d ^ 2) =
          c * (dy.map fun d => 1 / d ^ 2).sum := by
        rw [npDotL, zipWith_mul_sum y _ (by rw [List.length_map, hdylen]),
          listSum_eq_range, List.length_map, hdylen, Finset.mul_sum]
        exact Finset.sum_congr rfl fun i hi => by rw [hgetD i hi]
      rw [if_neg h1, hdot, mul_div_assoc, div_self (ne_of_gt hwsum), mul_one]
  have hzero : (RRLyraeTemplateModeler._fit tm t y dy).chi2_0_ = 0 := by
    rw [fit_chi2_0, Finset.sum_congr rfl fun i hi => by rw [hgetD i hi, hmean]]
    exact Finset.sum_eq_zero fun i _ => by rw [sub_self]; simp
  exact ⟨hnn, hzero, by rw [scoreEntry, hzero]⟩

/-- Witness for C9 on constant data `y = [3, 3]`. -/
theorem claim_C9_witness :
    (([3, 3] : List ℚ) ≠ [] ∧ (∀ v ∈ ([3, 3] : List ℚ), v = 3) ∧
      (∀ d ∈ ([1, 1] : List ℚ), d ≠ 0) ∧
      (([1, 1] : List ℚ).length = 1 ∨
        ([1, 1] : List ℚ).length = ([3, 3] : List ℚ).length)) ∧
    (RRLyraeTemplateModeler._fit ([] : List (Template ℚ)) [0, 1] [3, 3] [1, 1]).chi2_0_ = 0 :=
  ⟨⟨by simp, by norm_num, by norm_num, Or.inr rfl⟩,
    (claim_C9 [] [0, 1] [3, 3] [1, 1] 3 (fun a => ⟨a.x0, true⟩) 1
      (by simp) (by norm_num) (by norm_num) (Or.inr rfl)).2.1⟩

/-- Writing `scores.flat[i] = f(periods.flat[i])` for every index of an
enumerated batch turns a prefix-sized initial buffer into the mapped
batch. -/
theorem foldl_enumFrom_set {β γ : Type} (f : β → γ) :
    ∀ (l : List β) (k : ℕ) (init : List γ), k + l.length ≤ init.length →
      List.foldl (fun acc ip => acc.set ip.1 (f ip.2)) init (l.enumFrom k) =
        init.take k ++ l.map f ++ init.drop (k + l.length) := by
  intro l
  induction l with
  | nil =>
      intro k init _
      simp [List.enumFrom, List.take_append_drop]
  | cons x xs ih =>
      intro k init h
      have hk : k < init.length := by
        have := h
        simp only [List.length_cons] at this
        omega
      have hset : init.set k (f x) = init.take k ++ f x :: init.drop (k + 1) := by
        rw [List.set_eq_take_append_cons_drop, if_pos hk]
      have hlenset : (init.set k (f x)).length = init.length :=
        List.length_set init k (f x)
      have hrec := ih (k + 1) (init.set k (f x)) (by
        rw [hlenset]
        simp only [List.length_cons] at h
        omega)
      simp only [List.enumFrom, List.foldl_cons]
      rw [hrec, hset]
      have htklen : (init.take k).length = k := by
        rw [List.length_take]
        omega
      rw [List.take_append_eq_append_take, List.take_take, htklen,
        min_eq_right (by omega : k ≤ k + 1)]
      have h1 : k + 1 - k = 1 := by omega
      rw [h1, List.take_cons, List.take_zero]
      rw [List.drop_append_eq_append_drop, htklen,
        List.drop_eq_nil_of_le (by rw [htklen]; omega)]
      have h2 : k + 1 + xs.length - k = xs.length + 1 := by omega
      rw [h2, List.drop_succ_cons, List.drop_drop, List.nil_append]
      have h3 : k + 1 + xs.length = k + (xs.length + 1) := by omega
      rw [h3]
      simp [List.append_assoc]
      omega

/-- `_score` preserves the shape of the trial-period batch and maps
`scoreEntry` over its flat data. -/
theorem score_shape_data (m : RRLyraeTemplateModeler α) (M : Minimizer α)
    (P : NDArray α) (h : P.WF) :
    (m._score M P).shape = P.shape ∧
    (m._score M P).data = P.data.map (scoreEntry m M) := by
  have hfold : ∀ (l : List α) (k : ℕ) (init : NDArray α),
      (List.foldl (fun sc ip => sc.setFlat ip.1 (scoreEntry m M ip.2)) init
        (l.enumFrom k)).shape = init.shape ∧
      (List.foldl (fun sc ip => sc.setFlat ip.1 (scoreEntry m M ip.2)) init
        (l.enumFrom k)).data =
        List.foldl (fun acc ip => acc.set ip.1 (scoreEntry m M ip.2)) init.data
          (l.enumFrom k) := by
    intro l
    induction l with
    | nil => intro k init; exact ⟨rfl, rfl⟩
    | cons x xs ih =>
        intro k init
        simp only [List.enumFrom, List.foldl_cons]
        exact ih (k + 1) (init.setFlat k (scoreEntry m M x))
  have hwf : P.data.length = (List.replicate P.shape.prod (0 : α)).length := by
    rw [List.length_replicate]
    exact h
  have hscore : m._score M P =
      List.foldl (fun sc ip => sc.setFlat ip.1 (scoreEntry m M ip.2))
        (npZeros P.shape) (P.data.enumFrom 0) := rfl
  obtain ⟨hs, hd⟩ := hfold P.data 0 (npZeros P.shape)
  rw [hscore]
  refine ⟨hs, ?_⟩
  rw [hd, npZeros,
    foldl_enumFrom_set (scoreEntry m M) P.data 0 _ (by rw [← hwf]; omega)]
  simp only [List.take_zero, List.nil_append, Nat.zero_add]
  have hdl : P.data.length = P.shape.prod := h
  rw [List.drop_eq_nil_of_le (by simp [List.length_replicate, hdl]),
    List.append_nil]

/-- The chi-square list produced by `_eval_templates` is, template by
template, the chi-square at that template's optimized parameters. -/
theorem eval_templates_chi2 (m : RRLyraeTemplateModeler α) (M : Minimizer α)
    (p : α) :
    (m._eval_templates M p).2 = (List.range m.templates.length).map
      (fun k => m._chi2 (m._optimize M p k) p k) := by
  unfold RRLyraeTemplateModeler._eval_templates
  apply List.ext_getElem
  · simp [List.enum_length]
  · intro i h1 h2
    simp [List.getElem_enum, List.getElem_map, List.getElem_range]

/-- C1: `_score` returns a batch of the same shape as the input periods in
which each entry is `1 -` (the minimum over templates of the optimized
chi-square) `/ chi2_0_`. -/
theorem claim_C1 (m : RRLyraeTemplateModeler α) (M : Minimizer α)
    (periods : NDArray α) (hwf : periods.WF) (htm : m.templates ≠ []) :
    (m._score M periods).shape = periods.shape ∧
    (m._score M periods).data = periods.data.map (fun p =>
      1 - pyMin ((List.range m.templates.length).map
        (fun k => m._chi2 (m._optimize M p k) p k)) / m.chi2_0_) := by
  obtain ⟨hs, hd⟩ := score_shape_data m M periods hwf
  refine ⟨hs, ?_⟩
  rw [hd]
  exact List.map_congr_left fun p _ => by
    rw [scoreEntry, eval_templates_chi2]

/-- Witness for C1 on a concrete fitted modeler and a 1-D period batch. -/
theorem claim_C1_witness :
    ((⟨[2], [1, 1]⟩ : NDArray ℚ).WF ∧
      (⟨[⟨fun _ => 0, fun _ => 0⟩], [0, 1], [0, 2], [1, 1], 2⟩ :
        RRLyraeTemplateModeler ℚ).templates ≠ []) ∧
    ((⟨[⟨fun _ => 0, fun _ => 0⟩], [0, 1], [0, 2], [1, 1], 2⟩ :
        RRLyraeTemplateModeler ℚ)._score (fun a => ⟨a.x0, true⟩)
        ⟨[2], [1, 1]⟩).shape = ([2] : List ℕ) ∧
    ((⟨[⟨fun _ => 0, fun _ => 0⟩], [0, 1], [0, 2], [1, 1], 2⟩ :
        RRLyraeTemplateModeler ℚ)._score (fun a => ⟨a.x0, true⟩)
        ⟨[2], [1, 1]⟩).data = ([1, 1] : List ℚ).map (fun p =>
      1 - pyMin ((List.range 1).map (fun k =>
        (⟨[⟨fun _ => 0, fun _ => 0⟩], [0, 1], [0, 2], [1, 1], 2⟩ :
          RRLyraeTemplateModeler ℚ)._chi2
          ((⟨[⟨fun _ => 0, fun _ => 0⟩], [0, 1], [0, 2], [1, 1], 2⟩ :
            RRLyraeTemplateModeler ℚ)._optimize (fun a => ⟨a.x0, true⟩) p k)
            p k)) / 2) :=
  ⟨⟨rfl, List.cons_ne_nil _ _⟩,
    claim_C1 _ (fun a => ⟨a.x0, true⟩) ⟨[2], [1, 1]⟩ rfl (List.cons_ne_nil _ _)⟩

theorem maskAssign_length {γ : Type} :
    ∀ (ms : List Bool) (xs vs : List γ), (maskAssign ms xs vs).length = xs.length := by
  intro ms
  induction ms with
  | nil => intro xs vs; simp [maskAssign]
  | cons b ms ih =>
      intro xs vs
      cases xs with
      | nil => simp [maskAssign]
      | cons x xs =>
          cases b with
          | false => simp [maskAssign, ih]
          | true => cases vs <;> simp [maskAssign, ih]

theorem maskSelect_length_congr {γ δ : Type} :
    ∀ (ms : List Bool) (xs : List γ) (ys : List δ), xs.length = ys.length →
      (maskSelect ms xs).length = (maskSelect ms ys).length := by
  intro ms
  induction ms with
  | nil => intro xs ys _; simp [maskSelect]
  | cons b ms ih =>
      intro xs ys h
      cases xs with
      | nil =>
          cases ys with
          | nil => rfl
          | cons y ys => simp at h
      | cons x xs =>
          cases ys with
          | nil => simp at h
          | cons y ys =>
              cases b <;> simp [maskSelect, ih xs ys (by simpa using h)]

theorem maskSelect_maskAssign {γ : Type} :
    ∀ (ms : List Bool) (xs vs : List γ), ms.length = xs.length →
      vs.length = (maskSelect ms xs).length →
      maskSelect ms (maskAssign ms xs vs) = vs := by
  intro ms
  induction ms with
  | nil =>
      intro xs vs _ hv
      have hvnil : vs = [] := by
        simpa [maskSelect, List.length_eq_zero] using hv
      subst hvnil
      simp [maskSelect]
  | cons b ms ih =>
      intro xs vs hx hv
      cases xs with
      | nil => simp at hx
      | cons x xs =>
          cases b with
          | false =>
              simp only [maskSelect, Bool.false_eq_true, if_false] at hv
              simp only [maskAssign, Bool.false_eq_true, if_false, maskSelect]
              exact ih xs vs (by simpa using hx) hv
          | true =>
              cases vs with
              | nil => simp [maskSelect] at hv
              | cons v vs =>
                  simp only [maskSelect, if_true, List.length_cons] at hv
                  simp only [maskAssign, if_true, maskSelect, List.cons.injEq]
                  exact ⟨trivial, ih xs vs (by simpa using hx) (by simpa using hv)⟩

theorem maskSelect_maskAssign_ne {β γ : Type} [DecidableEq β] (b c : β)
    (hbc : b ≠ c) :
    ∀ (filts : List β) (xs vs : List γ), filts.length = xs.length →
      maskSelect (eqMask filts b) (maskAssign (eqMask filts c) xs vs) =
        maskSelect (eqMask filts b) xs := by
  intro filts
  induction filts with
  | nil => intro xs vs _; simp [eqMask, maskAssign]
  | cons f fs ih =>
      intro xs vs h
      cases xs with
      | nil => simp at h
      | cons x xs =>
          have hlen : fs.length = xs.length := by simpa using h
          by_cases hfc : f = c
          · have hfb : f ≠ b := fun hfb => hbc (hfb.symm.trans hfc)
            cases vs with
            | nil =>
                simp only [eqMask, List.map_cons, maskAssign, maskSelect,
                  decide_eq_true hfc, decide_eq_false hfb, if_true,
                  Bool.false_eq_true, if_false]
                exact ih xs [] hlen
            | cons v vs2 =>
                simp only [eqMask, List.map_cons, maskAssign, maskSelect,
                  decide_eq_true hfc, decide_eq_false hfb, if_true,
                  Bool.false_eq_true, if_false]
                exact ih xs vs2 hlen
          · by_cases hfb : f = b
            · simp only [eqMask, List.map_cons, maskAssign, maskSelect,
                decide_eq_false hfc, decide_eq_true hfb, if_true,
                Bool.false_eq_true, if_false, List.cons.injEq]
              exact ⟨trivial, ih xs vs hlen⟩
            · simp only [eqMask, List.map_cons, maskAssign, maskSelect,
                decide_eq_false hfc, decide_eq_false hfb,
                Bool.false_eq_true, if_false]
              exact ih xs vs hlen

theorem mb_fold_spec {β : Type} [DecidableEq β]
    (mb : RRLyraeTemplateModelerMultiband α β) (M : Minimizer α)
    (t : List α) (filts : List β) (p : α) :
    ∀ (u : List β) (r : List α), u.Nodup → filts.length = t.length →
      t.length = r.length →
      (∀ c ∈ u, ∃ sb, dictLookup mb.modeldict_ c = some sb) →
      ∃ rr,
        List.foldl (fun acc filt =>
          acc.bind (fun result =>
            (dictLookup mb.modeldict_ filt).map (fun sb =>
              maskAssign (eqMask filts filt) result
                (sb._predict M (maskSelect (eqMask filts filt) t) p))))
          (some r) u = some rr ∧
        rr.length = r.length ∧
        (∀ b, b ∉ u → maskSelect (eqMask filts b) rr =
          maskSelect (eqMask filts b) r) ∧
        (∀ b ∈ u, ∀ sb, dictLookup mb.modeldict_ b = some sb →
          maskSelect (eqMask filts b) rr =
            sb._predict M (maskSelect (eqMask filts b) t) p) := by
  intro u
  induction u with
  | nil =>
      intro r _ _ _ _
      exact ⟨r, rfl, rfl, fun b _ => rfl, fun b hb => absurd hb (List.not_mem_nil b)⟩
  | cons c u ih =>
      intro r hnodup hlf hlr hall
      obtain ⟨sb, hsb⟩ := hall c (List.mem_cons_self c u)
      have hflen : filts.length = r.length := hlf.trans hlr
      set vals := sb._predict M (maskSelect (eqMask filts c) t) p with hvals
      have hstep :
          (some r).bind (fun result =>
            (dictLookup mb.modeldict_ c).map (fun sb2 =>
              maskAssign (eqMask filts c) result
                (sb2._predict M (maskSelect (eqMask filts c) t) p))) =
          some (maskAssign (eqMask filts c) r vals) := by
        simp only [hvals, hsb]
        rfl
      obtain ⟨rr, hfold, hlen2, hnot, hmem⟩ :=
        ih (maskAssign (eqMask filts c) r vals) (List.nodup_cons.mp hnodup).2
          hlf (hlr.trans (maskAssign_length _ _ _).symm)
          (fun d hd => hall d (List.mem_cons_of_mem c hd))
      refine ⟨rr, ?_, ?_, ?_, ?_⟩
      · rw [List.foldl_cons]
        rw [show ((some r).bind (fun result =>
            (dictLookup mb.modeldict_ c).map (fun sb2 =>
              maskAssign (eqMask filts c) result
                (sb2._predict M (maskSelect (eqMask filts c) t) p)))) =
            some (maskAssign (eqMask filts c) r vals) from hstep]
        exact hfold
      · rw [hlen2, maskAssign_length]
      · intro b hb
        have hbc : b ≠ c := fun h => hb (h ▸ List.mem_cons_self c u)
        have hbu : b ∉ u := fun h => hb (List.mem_cons_of_mem c h)
        rw [hnot b hbu, maskSelect_maskAssign_ne b c hbc filts r vals hflen]
      · intro b hb sb2 hsb2
        rcases List.mem_cons.mp hb with rfl | hbu
        · have hsbe : sb2 = sb := by
            rw [hsb] at hsb2
            exact (Option.some.inj hsb2).symm
          subst hsbe
          have hbu2 : b ∉ u := (List.nodup_cons.mp hnodup).1
          rw [hnot b hbu2]
          rw [maskSelect_maskAssign (eqMask filts b) r vals
            (by rw [eqMask, List.length_map]; exact hflen)
            (by
              rw [hvals, RRLyraeTemplateModeler._predict]
              simp only [List.length_map]
              exact (maskSelect_length_congr (eqMask filts b) t r hlr).symm ▸
                maskSelect_length_congr (eqMask filts b) t r hlr)]
        · exact hmem b hbu sb2 hsb2

/-- C7: multiband `_predict` returns, for requests whose bands were all
seen at fit time, an output of the same length as `t`, in which the
positions carrying each band label hold exactly that band sub-model's own
`_predict` output on the matching subsequence of `t`. -/
theorem claim_C7 {β : Type} [DecidableEq β] [LinearOrder β]
    (mb : RRLyraeTemplateModelerMultiband α β) (M : Minimizer α)
    (t : List α) (filts : List β) (p : α)
    (hlen : filts.length = t.length)
    (hb : ∀ b ∈ filts, ∃ sb, dictLookup mb.modeldict_ b = some sb) :
    ∃ r, mb._predict M t filts p = some r ∧ r.length = t.length ∧
      ∀ b ∈ filts, ∀ sb, dictLookup mb.modeldict_ b = some sb →
        maskSelect (eqMask filts b) r =
          sb._predict M (maskSelect (eqMask filts b) t) p := by
  have hperm : List.Perm (List.insertionSort (· ≤ ·) filts.dedup) filts.dedup :=
    List.perm_insertionSort _ _
  have hnodup : (npUnique filts).Nodup := by
    rw [npUnique]
    exact hperm.nodup_iff.mpr (List.nodup_dedup filts)
  have hmem : ∀ c, c ∈ npUnique filts ↔ c ∈ filts := fun c => by
    rw [npUnique]
    exact (hperm.mem_iff).trans List.mem_dedup
  obtain ⟨rr, hfold, hlen2, _, hsel⟩ :=
    mb_fold_spec mb M t filts p (npUnique filts)
      (List.replicate t.length 0) hnodup hlen
      (by rw [List.length_replicate])
      (fun c hc => hb c ((hmem c).mp hc))
  refine ⟨rr, hfold, by rw [hlen2, List.length_replicate], ?_⟩
  intro b hbf sb hsb
  exact hsel b ((hmem b).mpr hbf) sb hsb

/-- Witness for C7 with two bands interleaved as `a, b, a`. -/
theorem claim_C7_witness :
    ((['a', 'b', 'a'] : List Char).length = ([0, 1, 2] : List ℚ).length ∧
      (∀ b ∈ (['a', 'b', 'a'] : List Char), ∃ sb,
        dictLookup (⟨['a', 'b'],
          [⟨[], [0], [1], [1], 1⟩, ⟨[], [1], [2], [1], 2⟩]⟩ :
          RRLyraeTemplateModelerMultiband ℚ Char).modeldict_ b = some sb)) ∧
    ∃ r, (⟨['a', 'b'],
        [⟨[], [0], [1], [1], 1⟩, ⟨[], [1], [2], [1], 2⟩]⟩ :
        RRLyraeTemplateModelerMultiband ℚ Char)._predict
        (fun a => ⟨a.x0, true⟩) [0, 1, 2] ['a', 'b', 'a'] 1 = some r ∧
      r.length = ([0, 1, 2] : List ℚ).length ∧
      ∀ b ∈ (['a', 'b', 'a'] : List Char), ∀ sb,
        dictLookup (⟨['a', 'b'],
          [⟨[], [0], [1], [1], 1⟩, ⟨[], [1], [2], [1], 2⟩]⟩ :
          RRLyraeTemplateModelerMultiband ℚ Char).modeldict_ b = some sb →
        maskSelect (eqMask ['a', 'b', 'a'] b) r =
          sb._predict (fun a => ⟨a.x0, true⟩)
            (maskSelect (eqMask ['a', 'b', 'a'] b) [0, 1, 2]) 1 := by
  have hex : ∀ b ∈ (['a', 'b', 'a'] : List Char), ∃ sb,
      dictLookup (⟨['a', 'b'],
        [⟨[], [0], [1], [1], 1⟩, ⟨[], [1], [2], [1], 2⟩]⟩ :
        RRLyraeTemplateModelerMultiband ℚ Char).modeldict_ b = some sb := by
    intro b hbm
    rcases List.mem_cons.mp hbm with rfl | hbm
    · exact ⟨_, rfl⟩
    rcases List.mem_cons.mp hbm with rfl | hbm
    · exact ⟨_, rfl⟩
    rcases List.mem_cons.mp hbm with rfl | hbm
    · exact ⟨_, rfl⟩
    · exact absurd hbm (List.not_mem_nil b)
  exact ⟨⟨rfl, hex⟩, claim_C7 (⟨['a', 'b'],
    [⟨[], [0], [1], [1], 1⟩, ⟨[], [1], [2], [1], 2⟩]⟩ :
    RRLyraeTemplateModelerMultiband ℚ Char) (fun a => ⟨a.x0, true⟩) [0, 1, 2]
    ['a', 'b', 'a'] 1 rfl hex⟩

theorem flatten_getD_uniform {γ : Type} (k : ℕ) :
    ∀ (L : List (List γ)) (j r : ℕ) (d : γ), (∀ x ∈ L, x.length = k) →
      j < L.length → r < k →
      L.flatten.getD (j * k + r) d = (L.getD j []).getD r d := by
  intro L
  induction L with
  | nil => intro j r d _ hj _; simp at hj
  | cons x Ls ih =>
      intro j r d hall hj hr
      have hx : x.length = k := hall x (List.mem_cons_self x Ls)
      cases j with
      | zero =>
          rw [List.flatten_cons, Nat.zero_mul, Nat.zero_add,
            List.getD_append _ _ _ _ (by rw [hx]; exact hr), List.getD_cons_zero]
      | succ j =>
          rw [List.flatten_cons,
            List.getD_append_right _ _ _ _ (by rw [hx, Nat.succ_mul]; omega),
            List.getD_cons_succ]
          have hidx : (j + 1) * k + r - x.length = j * k + r := by
            rw [hx, Nat.succ_mul]; omega
          rw [hidx]
          exact ih j r d (fun z hz => hall z (List.mem_cons_of_mem x hz))
            (by simpa using hj) hr

theorem map_eq_range_getD {γ δ : Type} (l : List γ) (f : γ → δ) (e : γ) :
    l.map f = (List.range l.length).map (fun i => f (l.getD i e)) := by
  apply List.ext_getElem (by simp)
  intro i h1 h2
  simp only [List.getElem_map, List.getElem_range]
  rw [List.getD_eq_getElem l e (by simpa using h1)]

/-- C2 amended: for 1-D (flat) period batches the multiband `_score` is the
chi2₀-weighted elementwise average of the sub-models' scores. -/
theorem claim_C2_amended {β : Type} (mb : RRLyraeTemplateModelerMultiband α β)
    (M : Minimizer α) (periods : NDArray α)
    (hm : mb.models_ ≠ [])
    (hsh : periods.shape = [periods.data.length]) :
    mb._score M periods = some (mbScoreSpec mb M periods) := by
  have hwf : periods.WF := by rw [NDArray.WF, hsh]; simp
  obtain ⟨m0, rest, hmods⟩ := List.exists_cons_of_ne_nil hm
  have hsc : ∀ mdl : RRLyraeTemplateModeler α,
      (mdl._score M periods).shape = periods.shape ∧
      (mdl._score M periods).data = periods.data.map (scoreEntry mdl M) :=
    fun mdl => score_shape_data mdl M periods hwf
  set k := periods.data.length with hk
  set models := m0 :: rest with hmodels
  have hdatlen : ∀ mdl : RRLyraeTemplateModeler α,
      (mdl._score M periods).data.length = k := fun mdl => by
    rw [(hsc mdl).2, List.length_map]
  simp only [RRLyraeTemplateModelerMultiband._score, hmods, mbScoreSpec]
  rw [List.map_cons, List.map_cons, npStack]
  have hsh0 : (m0._score M periods).shape = k :: [] := by
    rw [(hsc m0).1, hsh]
  rw [hsh0]
  simp only [npDot1, List.length_cons, List.length_map]
  rw [show ([] : List ℕ).length + 1 + 1 - 2 = 0 from rfl,
    show ([] : List ℕ).length + 1 + 1 - 1 = 1 from rfl]
  simp only [List.getD_cons_zero, List.getD_cons_succ, List.take_zero,
    List.prod_nil, List.eraseIdx_cons_zero]
  simp only [if_true]
  simp only [Option.map_some']
  congr 1
  have hrange1 : List.range 1 = [0] := by simp [List.range_succ]
  rw [hrange1]
  simp only [List.map_cons, List.map_nil, List.flatten_cons, List.flatten_nil,
    List.append_nil, List.map_map]
  refine congrArg₂ NDArray.mk (by rw [hsh]) ?_
  have hL : ∀ z ∈ (m0._score M periods).data ::
      rest.map (fun mdl => (mdl._score M periods).data), z.length = k := by
    intro z hz
    rcases List.mem_cons.mp hz with rfl | hz2
    · exact hdatlen m0
    · obtain ⟨mdl, _, rfl⟩ := List.mem_map.mp hz2
      exact hdatlen mdl
  have hLeq2 : List.map (NDArray.data ∘ fun model => model._score M periods) rest =
      rest.map (fun mdl => (mdl._score M periods).data) := rfl
  apply List.ext_getElem
  · simp
  intro r h1 h2
  simp only [List.getElem_map, List.getElem_range, Function.comp_apply]
  have hrk : r < k := by simpa using h1
  congr 1
  apply Finset.sum_congr (by rw [hmodels, List.length_cons])
  intro j hj
  have hjlt : j < models.length := Finset.mem_range.mp hj
  rw [hLeq2, ← List.flatten_cons]
  rw [show (0 * (rest.length + 1) + j) * k + r = j * k + r by ring_nf]
  rw [flatten_getD_uniform k _ j r 0 hL (by simpa [hmodels] using hjlt) hrk]
  have hjd : ((m0._score M periods).data ::
      rest.map (fun mdl => (mdl._score M periods).data)).getD j [] =
      ((models.getD j default)._score M periods).data := by
    have hmapc : (m0._score M periods).data ::
        rest.map (fun mdl => (mdl._score M periods).data) =
        models.map (fun mdl => (mdl._score M periods).data) := by
      rw [hmodels, List.map_cons]
    rw [hmapc, getD_map_lt _ models j [] default hjlt]
  rw [hjd, (hsc _).2,
    getD_map_lt _ periods.data r 0 0 hrk,
    List.getD_eq_getElem periods.data 0 (by simpa using hrk)]
  congr 1
  rw [show (m0.chi2_0_ :: rest.map (fun mdl => mdl.chi2_0_)) =
      models.map (fun mdl => mdl.chi2_0_) by rw [hmodels, List.map_cons]]
  rw [getD_map_lt _ models j 0 default hjlt]

set_option maxHeartbeats 3200000 in
/-- C2 counterexample: on the genuinely fitted two-band dataset below and
the 2×1 trial-period batch `[[1], [1]]`, `np.dot(weights, scores)` contracts
the band weights against the second-to-last axis of the stacked score array
— the leading period axis, not the band axis — so the code returns
`[[-1], [-1/2]]` (band A's score in row 0, band B's in row 1) while the
claimed chi2₀-weighted elementwise average is `[[-7/8], [-7/8]]`. -/
theorem claim_C2_counterexample :
    (RRLyraeTemplateModelerMultiband.fit
        (fun _ => [⟨fun _ => 0, fun _ => 0⟩])
        ([0, 1, 0, 1, 2] : List ℚ) [0, 2, 0, 0, 1] [1, 1, 1, 1, 1]
        (['a', 'a', 'b', 'b', 'b'] : List Char))._score
      (fun a => ⟨a.x0, true⟩) (⟨[2, 1], [1, 1]⟩ : NDArray ℚ) ≠
    some (mbScoreSpec (RRLyraeTemplateModelerMultiband.fit
        (fun _ => [⟨fun _ => 0, fun _ => 0⟩])
        ([0, 1, 0, 1, 2] : List ℚ) [0, 2, 0, 0, 1] [1, 1, 1, 1, 1]
        (['a', 'a', 'b', 'b', 'b'] : List Char))
      (fun a => ⟨a.x0, true⟩) (⟨[2, 1], [1, 1]⟩ : NDArray ℚ)) := by
  have hu : uniqueFirst (['a', 'a', 'b', 'b', 'b'] : List Char) = ['a', 'b'] := rfl
  have hta : maskSelect (eqMask (['a', 'a', 'b', 'b', 'b'] : List Char) 'a')
      ([0, 1, 0, 1, 2] : List ℚ) = [0, 1] := rfl
  have hya : maskSelect (eqMask (['a', 'a', 'b', 'b', 'b'] : List Char) 'a')
      ([0, 2, 0, 0, 1] : List ℚ) = [0, 2] := rfl
  have hda : maskSelect (eqMask (['a', 'a', 'b', 'b', 'b'] : List Char) 'a')
      ([1, 1, 1, 1, 1] : List ℚ) = [1, 1] := rfl
  have htb : maskSelect (eqMask (['a', 'a', 'b', 'b', 'b'] : List Char) 'b')
      ([0, 1, 0, 1, 2] : List ℚ) = [0, 1, 2] := rfl
  have hyb : maskSelect (eqMask (['a', 'a', 'b', 'b', 'b'] : List Char) 'b')
      ([0, 2, 0, 0, 1] : List ℚ) = [0, 0, 1] := rfl
  have hdb : maskSelect (eqMask (['a', 'a', 'b', 'b', 'b'] : List Char) 'b')
      ([1, 1, 1, 1, 1] : List ℚ) = [1, 1, 1] := rfl
  set M : Minimizer ℚ := fun a => ⟨a.x0, true⟩ with hM
  set fA := RRLyraeTemplateModeler._fit
    [(⟨fun _ => 0, fun _ => 0⟩ : Template ℚ)] [0, 1] [0, 2] [1, 1] with hfA
  set fB := RRLyraeTemplateModeler._fit
    [(⟨fun _ => 0, fun _ => 0⟩ : Template ℚ)] [0, 1, 2] [0, 0, 1] [1, 1, 1] with hfB
  have hmfit : RRLyraeTemplateModelerMultiband.fit
      (fun _ => [(⟨fun _ => 0, fun _ => 0⟩ : Template ℚ)])
      ([0, 1, 0, 1, 2] : List ℚ) [0, 2, 0, 0, 1] [1, 1, 1, 1, 1]
      (['a', 'a', 'b', 'b', 'b'] : List Char) = ⟨['a', 'b'], [fA, fB]⟩ := by
    simp only [RRLyraeTemplateModelerMultiband.fit,
      RRLyraeTemplateModelerMultiband._fit, hu, List.map_cons, List.map_nil,
      hta, hya, hda, htb, hyb, hdb, ← hfA, ← hfB]
  have hw1 : fA.chi2_0_ = 2 := by
    rw [hfA]
    norm_num [fit_chi2_0, npDotL, dyAt, npMean, Finset.sum_range_succ,
      Finset.sum_range_zero, List.zipWith_cons_cons, List.map_cons,
      List.map_nil, List.sum_cons, List.sum_nil, List.getD_cons_zero,
      List.getD_cons_succ, List.length_cons, List.length_nil]
  have hw2 : fB.chi2_0_ = 2 / 3 := by
    rw [hfB]
    norm_num [fit_chi2_0, npDotL, dyAt, npMean, Finset.sum_range_succ,
      Finset.sum_range_zero, List.zipWith_cons_cons, List.map_cons,
      List.map_nil, List.sum_cons, List.sum_nil, List.getD_cons_zero,
      List.getD_cons_succ, List.length_cons, List.length_nil]
  have hs1 : scoreEntry fA M 1 = -1 := by
    rw [hfA, hM]
    norm_num [scoreEntry, RRLyraeTemplateModeler._eval_templates,
      RRLyraeTemplateModeler._optimize, RRLyraeTemplateModeler._optimizeArgs,
      RRLyraeTemplateModeler._chi2, RRLyraeTemplateModeler._model,
      RRLyraeTemplateModeler.tmpl, RRLyraeTemplateModeler._fit, fit_chi2_0,
      pyMin, pyMax, dyAt, npDotL, npMean, min_def, max_def,
      Finset.sum_range_succ, Finset.sum_range_zero, List.zipWith_cons_cons,
      List.map_cons, List.map_nil, List.sum_cons, List.sum_nil,
      List.getD_cons_zero, List.getD_cons_succ, List.length_cons,
      List.length_nil, List.range_succ, List.range_zero, List.enum,
      List.enumFrom, List.foldl_cons, List.foldl_nil]
  have hs2 : scoreEntry fB M 1 = -(1 / 2) := by
    rw [hfB, hM]
    norm_num [scoreEntry, RRLyraeTemplateModeler._eval_templates,
      RRLyraeTemplateModeler._optimize, RRLyraeTemplateModeler._optimizeArgs,
      RRLyraeTemplateModeler._chi2, RRLyraeTemplateModeler._model,
      RRLyraeTemplateModeler.tmpl, RRLyraeTemplateModeler._fit, fit_chi2_0,
      pyMin, pyMax, dyAt, npDotL, npMean, min_def, max_def,
      Finset.sum_range_succ, Finset.sum_range_zero, List.zipWith_cons_cons,
      List.map_cons, List.map_nil, List.sum_cons, List.sum_nil,
      List.getD_cons_zero, List.getD_cons_succ, List.length_cons,
      List.length_nil, List.range_succ, List.range_zero, List.enum,
      List.enumFrom, List.foldl_cons, List.foldl_nil]
  have hsc1 : fA._score M ⟨[2, 1], [1, 1]⟩ = ⟨[2, 1], [-1, -1]⟩ := by
    obtain ⟨h1, h2⟩ := score_shape_data fA M ⟨[2, 1], [1, 1]⟩ rfl
    have heta : fA._score M ⟨[2, 1], [1, 1]⟩ =
        ⟨(fA._score M ⟨[2, 1], [1, 1]⟩).shape,
         (fA._score M ⟨[2, 1], [1, 1]⟩).data⟩ := rfl
    rw [heta, h1, h2]
    simp [hs1]
  have hsc2 : fB._score M ⟨[2, 1], [1, 1]⟩ = ⟨[2, 1], [-(1 / 2), -(1 / 2)]⟩ := by
    obtain ⟨h1, h2⟩ := score_shape_data fB M ⟨[2, 1], [1, 1]⟩ rfl
    have heta : fB._score M ⟨[2, 1], [1, 1]⟩ =
        ⟨(fB._score M ⟨[2, 1], [1, 1]⟩).shape,
         (fB._score M ⟨[2, 1], [1, 1]⟩).data⟩ := rfl
    rw [heta, h1, h2]
    simp [hs2]
  rw [hmfit]
  norm_num [RRLyraeTemplateModelerMultiband._score, mbScoreSpec, hsc1, hsc2,
    hw1, hw2, hs1, hs2, npStack, npDot1, npDotL, List.map_cons, List.map_nil,
    List.flatten_cons, List.flatten_nil, List.range_succ, List.range_zero,
    Finset.sum_range_succ, Finset.sum_range_zero, List.getD_cons_zero,
    List.getD_cons_succ, List.sum_cons, List.sum_nil, List.length_cons,
    List.length_nil, List.zipWith_cons_cons, List.take_cons, List.take_nil,
    NDArray.mk.injEq]

/-- Witness for the amended C2 on a one-band fitted state and a 1-D period
batch. -/
theorem claim_C2_amended_witness :
    ((⟨['a'], [⟨[], [0], [1], [1], 1⟩]⟩ :
        RRLyraeTemplateModelerMultiband ℚ Char).models_ ≠ [] ∧
      (⟨[1], [1]⟩ : NDArray ℚ).shape = [(⟨[1], [1]⟩ : NDArray ℚ).data.length]) ∧
    (⟨['a'], [⟨[], [0], [1], [1], 1⟩]⟩ :
        RRLyraeTemplateModelerMultiband ℚ Char)._score (fun a => ⟨a.x0, true⟩)
      ⟨[1], [1]⟩ =
      some (mbScoreSpec (⟨['a'], [⟨[], [0], [1], [1], 1⟩]⟩ :
        RRLyraeTemplateModelerMultiband ℚ Char) (fun a => ⟨a.x0, true⟩)
        ⟨[1], [1]⟩) :=
  ⟨⟨List.cons_ne_nil _ _, rfl⟩,
    claim_C2_amended _ (fun a => ⟨a.x0, true⟩) ⟨[1], [1]⟩
      (List.cons_ne_nil _ _) rfl⟩

theorem floor_lt_self_of_fract_ne_zero (x : ℝ) (hx : Int.fract x ≠ 0) :
    (⌊x⌋ : ℝ) < x := by
  rcases lt_or_eq_of_le (Int.floor_le x) with h | h
  · exact h
  · exact absurd (show Int.fract x = 0 from by
      rw [Int.fract]
      exact sub_eq_zero.mpr h.symm) hx

/-- Away from the wrap points, `s ↦ (x - s) % 1` has derivative `-1`. -/
theorem hasDerivAt_fract_sub (x s0 : ℝ) (h : Int.fract (x - s0) ≠ 0) :
    HasDerivAt (fun s => Int.fract (x - s)) (-1) s0 := by
  have hfl : (⌊x - s0⌋ : ℝ) < x - s0 := floor_lt_self_of_fract_ne_zero _ h
  have hub : x - s0 < ⌊x - s0⌋ + 1 := Int.lt_floor_add_one (x - s0)
  have hopen : IsOpen {s : ℝ | x - s ∈ Set.Ioo ((⌊x - s0⌋ : ℝ)) (⌊x - s0⌋ + 1)} :=
    isOpen_Ioo.preimage (continuous_const.sub continuous_id)
  have hnh : {s : ℝ | x - s ∈ Set.Ioo ((⌊x - s0⌋ : ℝ)) (⌊x - s0⌋ + 1)} ∈ nhds s0 :=
    hopen.mem_nhds ⟨hfl, hub⟩
  have heq : (fun s => Int.fract (x - s)) =ᶠ[nhds s0]
      (fun s => x - s - (⌊x - s0⌋ : ℝ)) := by
    refine Filter.eventuallyEq_of_mem hnh fun s hs => ?_
    have hfloor : ⌊x - s⌋ = ⌊x - s0⌋ := by
      rw [Int.floor_eq_iff]
      constructor
      · exact le_of_lt hs.1
      · push_cast
        exact hs.2
    show Int.fract (x - s) = x - s - (⌊x - s0⌋ : ℝ)
    rw [Int.fract, hfloor]
  have hbase : HasDerivAt (fun s => x - s - (⌊x - s0⌋ : ℝ)) (-1) s0 :=
    ((hasDerivAt_id s0).const_sub x).sub_const _
  exact hbase.congr_of_eventuallyEq heq

/-- Derivative of one chi-square term `(f s / d) ^ 2`. -/
theorem hasDerivAt_sq_div (f : ℝ → ℝ) (fp x d : ℝ) (hf : HasDerivAt f fp x) :
    HasDerivAt (fun z => (f z / d) ^ 2) (2 * (f x) * fp / d ^ 2) x := by
  have h2 := (hf.div_const d).pow 2
  convert h2 using 1
  push_cast
  ring

/-- C4: the gradient returned by `_chi2` with `return_gradient=True` is
`(2·Σ r/dy², 2·Σ(r·T(phase))/dy², −2·amplitude·Σ(r·T'(phase))/dy²)` with
`r = model − y`, and — whenever the template derivative is genuine and no
sample sits exactly on the phase wrap — these are the partial derivatives
of the chi-square with respect to offset, amplitude, and shift. -/
theorem claim_C4 (m : RRLyraeTemplateModeler ℝ) (theta : ℝ × ℝ × ℝ)
    (p : ℝ) (k : ℕ)
    (hT : ∀ u : ℝ, HasDerivAt (m.tmpl k).eval ((m.tmpl k).deriv u) u)
    (hph : ∀ i ∈ Finset.range m.t.length,
      Int.fract (m.t.getD i 0 / p - theta.2.2) ≠ 0) :
    (m._chi2grad theta p k).2 =
      (2 * ∑ i ∈ Finset.range m.t.length,
        (m._model (m.t.getD i 0) theta p k - m.y.getD i 0) / dyAt m.dy i ^ 2,
       2 * ∑ i ∈ Finset.range m.t.length,
        (m._model (m.t.getD i 0) theta p k - m.y.getD i 0) *
          (m.tmpl k).eval (Int.fract (m.t.getD i 0 / p - theta.2.2)) /
            dyAt m.dy i ^ 2,
       -(2 * theta.2.1 * ∑ i ∈ Finset.range m.t.length,
        (m._model (m.t.getD i 0) theta p k - m.y.getD i 0) *
          (m.tmpl k).deriv (Int.fract (m.t.getD i 0 / p - theta.2.2)) /
            dyAt m.dy i ^ 2)) ∧
    HasDerivAt (fun o => m._chi2 (o, theta.2.1, theta.2.2) p k)
      (m._chi2grad theta p k).2.1 theta.1 ∧
    HasDerivAt (fun a => m._chi2 (theta.1, a, theta.2.2) p k)
      (m._chi2grad theta p k).2.2.1 theta.2.1 ∧
    HasDerivAt (fun sh => m._chi2 (theta.1, theta.2.1, sh) p k)
      (m._chi2grad theta p k).2.2.2 theta.2.2 := by
  refine ⟨?_, ?_, ?_, ?_⟩
  · simp only [RRLyraeTemplateModeler._chi2grad, Prod.mk.injEq]
    refine ⟨?_, ⟨?_, ?_⟩⟩
    · rw [Finset.mul_sum]
      exact Finset.sum_congr rfl fun i _ => by ring
    · rw [Finset.mul_sum]
      exact Finset.sum_congr rfl fun i _ => by ring
    · rw [Finset.mul_sum, neg_inj]
      exact Finset.sum_congr rfl fun i _ => by ring
  · simp only [RRLyraeTemplateModeler._chi2, RRLyraeTemplateModeler._model,
      RRLyraeTemplateModeler._chi2grad]
    have hterm : ∀ i ∈ Finset.range m.t.length,
        HasDerivAt (fun o : ℝ =>
          ((o + theta.2.1 * (m.tmpl k).eval
              (Int.fract (m.t.getD i 0 / p - theta.2.2)) - m.y.getD i 0) /
            dyAt m.dy i) ^ 2)
          (2 * (theta.1 + theta.2.1 * (m.tmpl k).eval
              (Int.fract (m.t.getD i 0 / p - theta.2.2)) - m.y.getD i 0) * 1 /
            dyAt m.dy i ^ 2) theta.1 := by
      intro i _
      exact hasDerivAt_sq_div _ _ _ _
        (((hasDerivAt_id theta.1).add_const _).sub_const _)
    have hsum := HasDerivAt.sum hterm
    convert hsum using 1
    exact Finset.sum_congr rfl fun i _ => by ring
  · simp only [RRLyraeTemplateModeler._chi2, RRLyraeTemplateModeler._model,
      RRLyraeTemplateModeler._chi2grad]
    have hterm : ∀ i ∈ Finset.range m.t.length,
        HasDerivAt (fun a : ℝ =>
          ((theta.1 + a * (m.tmpl k).eval
              (Int.fract (m.t.getD i 0 / p - theta.2.2)) - m.y.getD i 0) /
            dyAt m.dy i) ^ 2)
          (2 * (theta.1 + theta.2.1 * (m.tmpl k).eval
              (Int.fract (m.t.getD i 0 / p - theta.2.2)) - m.y.getD i 0) *
            (1 * (m.tmpl k).eval (Int.fract (m.t.getD i 0 / p - theta.2.2))) /
            dyAt m.dy i ^ 2) theta.2.1 := by
      intro i _
      exact hasDerivAt_sq_div _ _ _ _
        ((((hasDerivAt_id theta.2.1).mul_const _).const_add _).sub_const _)
    have hsum := HasDerivAt.sum hterm
    convert hsum using 1
    exact Finset.sum_congr rfl fun i _ => by ring
  · simp only [RRLyraeTemplateModeler._chi2, RRLyraeTemplateModeler._model,
      RRLyraeTemplateModeler._chi2grad]
    have hterm : ∀ i ∈ Finset.range m.t.length,
        HasDerivAt (fun sh : ℝ =>
          ((theta.1 + theta.2.1 * (m.tmpl k).eval
              (Int.fract (m.t.getD i 0 / p - sh)) - m.y.getD i 0) /
            dyAt m.dy i) ^ 2)
          (2 * (theta.1 + theta.2.1 * (m.tmpl k).eval
              (Int.fract (m.t.getD i 0 / p - theta.2.2)) - m.y.getD i 0) *
            (theta.2.1 * ((m.tmpl k).deriv
              (Int.fract (m.t.getD i 0 / p - theta.2.2)) * (-1))) /
            dyAt m.dy i ^ 2) theta.2.2 := by
      intro i hi
      have hfr := hasDerivAt_fract_sub (m.t.getD i 0 / p) theta.2.2 (hph i hi)
      have hTc : HasDerivAt
          (fun sh : ℝ => (m.tmpl k).eval (Int.fract (m.t.getD i 0 / p - sh)))
          ((m.tmpl k).deriv (Int.fract (m.t.getD i 0 / p - theta.2.2)) * (-1))
          theta.2.2 :=
        (hT _).comp theta.2.2 hfr
      exact hasDerivAt_sq_div _ _ _ _
        (((hTc.const_mul theta.2.1).const_add theta.1).sub_const _)
    have hsum := HasDerivAt.sum hterm
    convert hsum using 1
    rw [← Finset.sum_neg_distrib]
    exact Finset.sum_congr rfl fun i _ => by ring

/-- Witness for C4: the offset-slice derivative at a concrete one-sample
modeler with the identity template. -/
theorem claim_C4_witness :
    HasDerivAt (fun o => (⟨[⟨fun v => v, fun _ => 1⟩], [1/2], [0], [1], 0⟩ :
        RRLyraeTemplateModeler ℝ)._chi2 (o, 1, 1/3) 1 0)
      (((⟨[⟨fun v => v, fun _ => 1⟩], [1/2], [0], [1], 0⟩ :
        RRLyraeTemplateModeler ℝ)._chi2grad ((0 : ℝ), 1, 1/3) 1 0).2.1) 0 := by
  have hph : ∀ i ∈ Finset.range (⟨[⟨fun v => v, fun _ => 1⟩], [1/2], [0], [1], 0⟩ :
      RRLyraeTemplateModeler ℝ).t.length,
      Int.fract ((⟨[⟨fun v => v, fun _ => 1⟩], [1/2], [0], [1], 0⟩ :
        RRLyraeTemplateModeler ℝ).t.getD i 0 / 1 - ((0 : ℝ), 1, 1/3).2.2) ≠ 0 := by
    intro i hi
    have hi0 : i = 0 := by
      have := Finset.mem_range.mp hi
      simpa using Nat.lt_one_iff.mp (by simpa using this)
    subst hi0
    have h16 : ((1 : ℝ)/2) / 1 - 1/3 = 1/6 := by norm_num
    simp only [List.getD_cons_zero]
    rw [h16, Int.fract_eq_self.mpr ⟨by norm_num, by norm_num⟩]
    norm_num
  exact (claim_C4 (⟨[⟨fun v => v, fun _ => 1⟩], [1/2], [0], [1], 0⟩ :
      RRLyraeTemplateModeler ℝ) ((0 : ℝ), 1, 1/3) 1 0
      (fun u => hasDerivAt_id' u) hph).2.1

/-- C10: for a positive period the single-band model feeds its template
only phases in `[0, 1)` (the `% 1` wrap), and consequently the model is
periodic in time with period `p`, independently of the spline's behavior
outside `[0, 1)`. -/
theorem claim_C10 (m : RRLyraeTemplateModeler α) (theta : α × α × α)
    (p ti : α) (k : ℕ) (hp : 0 < p) :
    Int.fract (ti / p - theta.2.2) ∈ Set.Ico (0 : α) 1 ∧
    m._model ti theta p k =
      theta.1 + theta.2.1 * (m.tmpl k).eval (Int.fract (ti / p - theta.2.2)) ∧
    m._model (ti + p) theta p k = m._model ti theta p k := by
  refine ⟨⟨Int.fract_nonneg _, Int.fract_lt_one _⟩, rfl, ?_⟩
  unfold RRLyraeTemplateModeler._model
  have hstep : (ti + p) / p - theta.2.2 = (ti / p - theta.2.2) + ((1 : ℤ) : α) := by
    push_cast
    field_simp
    ring
  rw [hstep, Int.fract_add_int]

/-- Witness for C10 at concrete rational inputs (period 2). -/
theorem claim_C10_witness :
    (0 : ℚ) < 2 ∧
    (Int.fract ((3 : ℚ) / 2 - (5, 7, 1/3).2.2) ∈ Set.Ico (0 : ℚ) 1 ∧
     (⟨[], [], [], [], 0⟩ : RRLyraeTemplateModeler ℚ)._model 3 (5, 7, 1/3) 2 0 =
       (5, 7, 1/3).1 + (5, 7, 1/3).2.1 *
         ((⟨[], [], [], [], 0⟩ : RRLyraeTemplateModeler ℚ).tmpl 0).eval
           (Int.fract ((3 : ℚ) / 2 - (5, 7, 1/3).2.2)) ∧
     (⟨[], [], [], [], 0⟩ : RRLyraeTemplateModeler ℚ)._model (3 + 2) (5, 7, 1/3) 2 0 =
       (⟨[], [], [], [], 0⟩ : RRLyraeTemplateModeler ℚ)._model 3 (5, 7, 1/3) 2 0) :=
  ⟨by norm_num, claim_C10 _ (5, 7, 1/3) 2 3 0 (by norm_num)⟩

end Gatspy
